import Mathlib

/-
Verification of the lalyta bookmark-synchronization backend
(github.com/thinkofher/lalyta).

Shallow embedding of the Go source:
  * pkg/models        -- the Bookmarks record and its Empty check
  * pkg/storage       -- buntdb-backed store (SetBookmarks / GetBookmarks)
  * pkg/api           -- the HTTP handlers (Create / Read / Update /
                         LastUpdated / Version), modeled as pure functions
                         from the request data and the store state
  * pkg/service/gen   -- the random alphanumeric identifier generator

Modeling conventions:
  * time.Time instants are integers (nanoseconds since the Unix epoch);
    time.Time.Equal is integer equality and time.Now().UTC() is an explicit
    parameter `now` of each handler.
  * The buntdb backend is an association list from string keys to stored
    values.  Go stores JSON-marshalled strings; a stored string either
    decodes back into a bookmarksEntry or fails to decode, which the
    StoredVal type captures (json.Marshal of bookmarksEntry never fails,
    so SetBookmarks always stores a decodable entry; `corrupt` models a
    backend value that json.Unmarshal rejects).  tx.Set never fails on an
    open database, so backend writes are modeled as always succeeding.
  * The request body decoder is modeled by an Option argument: `none`
    means json.NewDecoder(...).Decode returned an error.
  * crypto/rand is modeled by a stream `Nat → Option (Fin 36)`: the i-th
    draw of rand.Int(rand.Reader, 36), `none` meaning the randomness
    source failed on that draw.
-/

/-- Instants of Go time.Time, modeled as integers (nanoseconds since the
Unix epoch).  time.Time.Equal is equality of instants, hence integer
equality here. -/
abbrev Time := Int

/-- Go time.UnixMicro: the instant `micros` microseconds after the Unix
epoch.  In particular time.UnixMicro 0 is the epoch, instant 0. -/
def timeUnixMicro (micros : Int) : Time := micros * 1000

/-- models.Bookmarks (pkg/models): the sole persisted entity. -/
structure models.Bookmarks where
  ID : String
  Bookmarks : String
  LastUpdated : Time
  Version : String
deriving DecidableEq, Repr

/-- models.Bookmarks.Empty (pkg/models): a record is empty when its ID is
empty, its LastUpdated equals time.UnixMicro(0), or its Version is empty. -/
def models.Bookmarks.Empty (b : models.Bookmarks) : Bool :=
  b.ID == "" || b.LastUpdated == timeUnixMicro 0 || b.Version == ""

/-- storage.bookmarksEntry (pkg/storage): the JSON-serialized shape of a
record as persisted in buntdb. -/
structure storage.bookmarksEntry where
  ID : String
  Bookmarks : String
  LastUpdated : Time
  Version : String
deriving DecidableEq, Repr

/-- Values held by the buntdb backend.  Go stores JSON strings; `entry e`
is a string that json.Unmarshal decodes into `e`, while `corrupt` is a
stored value that json.Unmarshal rejects. -/
inductive StoredVal where
  | entry (e : storage.bookmarksEntry)
  | corrupt
deriving DecidableEq, Repr

/-- Result of json.Unmarshal on a stored buntdb value: the decoded
bookmarksEntry, or `none` when decoding fails. -/
def jsonUnmarshal : StoredVal → Option storage.bookmarksEntry
  | .entry e => some e
  | .corrupt => none

/-- State of the buntdb backend: an association list from keys to stored
values (first binding for a key wins). -/
abbrev DBState := List (String × StoredVal)

/-- buntdb tx.Get inside a transaction: the value stored under `key`, or
`none` when the key is absent (buntdb ErrNotFound). -/
def txGet (db : DBState) (key : String) : Option StoredVal :=
  (db.find? (fun kv => kv.1 == key)).map (fun kv => kv.2)

/-- buntdb tx.Set inside a transaction: upserts `v` under `key`. -/
def txSet (db : DBState) (key : String) (v : StoredVal) : DBState :=
  (key, v) :: db.filter (fun kv => !(kv.1 == key))

/-- storage.bookmarksKey (pkg/storage): the key namespacing a record id,
fmt.Sprintf("bookmarks:%s", id). -/
def storage.bookmarksKey (id : String) : String := "bookmarks:" ++ id

/-- storage.makeBookmarksEntry (pkg/storage): serializes an entry to its
backend key and value.  json.Marshal of bookmarksEntry cannot fail, so the
error branch returning ("", "") is dead and the value is always a
decodable entry. -/
def storage.makeBookmarksEntry (b : storage.bookmarksEntry) : String × StoredVal :=
  (storage.bookmarksKey b.ID, StoredVal.entry b)

/-- storage.DB.SetBookmarks (pkg/storage): one buntdb Update (write)
transaction persisting the record under its namespaced key. -/
def storage.SetBookmarks (db : DBState) (b : models.Bookmarks) : DBState :=
  let kv := storage.makeBookmarksEntry
    { ID := b.ID, Bookmarks := b.Bookmarks, LastUpdated := b.LastUpdated, Version := b.Version }
  txSet db kv.1 kv.2

/-- storage.DB.GetBookmarks (pkg/storage): one buntdb View (read)
transaction.  Fails (none) when tx.Get finds no value under the namespaced
key, when json.Unmarshal rejects the stored value, or when the decoded
record fails the Empty check; otherwise returns the stored record. -/
def storage.GetBookmarks (db : DBState) (id : String) : Option models.Bookmarks :=
  match txGet db (storage.bookmarksKey id) with
  | none => none
  | some v =>
    match jsonUnmarshal v with
    | none => none
    | some b =>
      let res : models.Bookmarks :=
        { ID := b.ID, Bookmarks := b.Bookmarks, LastUpdated := b.LastUpdated, Version := b.Version }
      if res.Empty then none else some res

/-- Alphabet of gen (pkg/service/gen): const letters. -/
def letters : String := "abcdefghijklmnopqrstuvwxyz0123456789"

/-- Loop body of gen.String (pkg/service/gen): `k` iterations remain, `i`
is the current loop index, `acc` the strings.Builder contents.  Each
iteration draws the i-th random value below 36 and appends letters[n];
a failed draw aborts with an error. -/
def genStringLoop (source : Nat → Option (Fin 36)) : Nat → Nat → String → Except Unit String
  | 0, _, acc => .ok acc
  | k + 1, i, acc =>
    match source i with
    | none => .error ()
    | some n => genStringLoop source k (i + 1)
        (acc.push (letters.data.get (Fin.cast (by decide) n)))

/-- gen.String (pkg/service/gen): builds a random string of the requested
length over the 36-letter alphabet, failing if the randomness source
fails. -/
def genString (length : Nat) (source : Nat → Option (Fin 36)) : Except Unit String :=
  genStringLoop source length 0 ""

/-- api.idLength (pkg/api): const idLength = 32. -/
def api.idLength : Nat := 32

/-- Response of api.CreateBookmarks: 200 with id, lastUpdated and version,
or 500 (decode failure, id-generation failure, or persistence failure). -/
inductive api.CreateResult where
  | ok (id : String) (lastUpdated : Time) (version : String)
  | internalError
deriving DecidableEq, Repr

/-- Responses of the read-style handlers (api.Bookmarks, api.LastUpdated,
api.Version): 200 with a body, 400 on empty id, 404 when the store fails. -/
inductive api.ReadResult (α : Type) where
  | ok (body : α)
  | badRequest
  | notFound
deriving DecidableEq, Repr

/-- Response of api.UpdateBookmarks: 200 with the new lastUpdated, 400
(empty id, undecodable body, or stale lastUpdated), 404 (record absent),
or 500 (persistence failure; unreachable here since backend writes are
modeled as always succeeding). -/
inductive api.UpdateResult where
  | ok (lastUpdated : Time)
  | badRequest
  | notFound
  | internalError
deriving DecidableEq, Repr

/-- Body of a PUT /bookmarks/:id request (payload of api.UpdateBookmarks). -/
structure api.UpdatePayload where
  Bookmarks : String
  LastUpdated : Time
deriving DecidableEq, Repr

/-- api.CreateBookmarks (pkg/api): POST /bookmarks.  `body` is the decoded
version tag (none when JSON decoding fails), `source` the randomness
stream feeding gen.String(idLength), `now` the instant time.Now().UTC().
Returns the response and the backend state after the request. -/
def api.CreateBookmarks (body : Option String) (source : Nat → Option (Fin 36))
    (now : Time) (db : DBState) : api.CreateResult × DBState :=
  match body with
  | none => (.internalError, db)
  | some version =>
    match genString api.idLength source with
    | .error _ => (.internalError, db)
    | .ok id =>
      let bookmarks : models.Bookmarks :=
        { ID := id, Bookmarks := "", LastUpdated := now, Version := version }
      (.ok bookmarks.ID bookmarks.LastUpdated bookmarks.Version,
        storage.SetBookmarks db bookmarks)

/-- api.Bookmarks (pkg/api): GET /bookmarks/:id.  `id` is the extracted
path parameter.  Read-only, so the backend state is unchanged and only the
response is returned. -/
def api.Bookmarks (id : String) (db : DBState) : api.ReadResult (String × Time × String) :=
  if id = "" then .badRequest
  else
    match storage.GetBookmarks db id with
    | none => .notFound
    | some b => .ok (b.Bookmarks, b.LastUpdated, b.Version)

/-- api.UpdateBookmarks (pkg/api): PUT /bookmarks/:id.  `body` is the
decoded payload (none when JSON decoding fails), `now` the instant
time.Now().UTC() taken after the staleness check passes. -/
def api.UpdateBookmarks (id : String) (body : Option api.UpdatePayload)
    (now : Time) (db : DBState) : api.UpdateResult × DBState :=
  if id = "" then (.badRequest, db)
  else
    match body with
    | none => (.badRequest, db)
    | some p =>
      match storage.GetBookmarks db id with
      | none => (.notFound, db)
      | some b =>
        if p.LastUpdated ≠ b.LastUpdated then (.badRequest, db)
        else
          (.ok now, storage.SetBookmarks db
            { ID := id, Bookmarks := p.Bookmarks, LastUpdated := now, Version := b.Version })

/-- api.LastUpdated (pkg/api): GET /bookmarks/:id/lastUpdated. -/
def api.LastUpdated (id : String) (db : DBState) : api.ReadResult Time :=
  if id = "" then .badRequest
  else
    match storage.GetBookmarks db id with
    | none => .notFound
    | some b => .ok b.LastUpdated

/-- api.Version (pkg/api): GET /bookmarks/:id/version. -/
def api.Version (id : String) (db : DBState) : api.ReadResult String :=
  if id = "" then .badRequest
  else
    match storage.GetBookmarks db id with
    | none => .notFound
    | some b => .ok b.Version

/-- Read phase of api.UpdateBookmarks: everything the handler does up to
and including its buntdb View transaction (storage.GetBookmarks) and the
staleness comparison.  Returns either an early response (inl) or the
record read, to be used by the later write transaction (inr).  The handler
runs this and the write phase as two separate buntdb transactions, so
steps of another request may be interleaved between them. -/
def updateBookmarksRead (id : String) (body : Option api.UpdatePayload)
    (db : DBState) : Sum api.UpdateResult models.Bookmarks :=
  if id = "" then .inl .badRequest
  else
    match body with
    | none => .inl .badRequest
    | some p =>
      match storage.GetBookmarks db id with
      | none => .inl .notFound
      | some b =>
        if p.LastUpdated ≠ b.LastUpdated then .inl .badRequest
        else .inr b

/-- Write phase of api.UpdateBookmarks: the buntdb Update transaction
(storage.SetBookmarks) writing the new record, and the 200 response. -/
def updateBookmarksWrite (id : String) (p : api.UpdatePayload) (now : Time)
    (b : models.Bookmarks) (db : DBState) : api.UpdateResult × DBState :=
  (.ok now, storage.SetBookmarks db
    { ID := id, Bookmarks := p.Bookmarks, LastUpdated := now, Version := b.Version })

theorem String.data_push' (s : String) (c : Char) : (s.push c).data = s.data ++ [c] := by
  cases s; rfl

theorem String.length_push' (s : String) (c : Char) : (s.push c).length = s.length + 1 := by
  cases s; simp [String.push, String.length]

theorem txGet_txSet_same (db : DBState) (key : String) (v : StoredVal) :
    txGet (txSet db key v) key = some v := by
  simp [txGet, txSet, List.find?]

theorem models.Bookmarks.Empty_eq_false_iff (b : models.Bookmarks) :
    b.Empty = false ↔ b.ID ≠ "" ∧ b.LastUpdated ≠ timeUnixMicro 0 ∧ b.Version ≠ "" := by
  simp [models.Bookmarks.Empty, and_assoc]

theorem storage.GetBookmarks_some_empty_false (db : DBState) (id : String)
    (b : models.Bookmarks) (h : storage.GetBookmarks db id = some b) :
    b.Empty = false := by
  unfold storage.GetBookmarks at h
  cases hv : txGet db (storage.bookmarksKey id) with
  | none => rw [hv] at h; exact absurd h (by simp)
  | some v =>
    rw [hv] at h
    cases v with
    | corrupt => exact absurd h (by simp [jsonUnmarshal])
    | entry e =>
      simp only [jsonUnmarshal] at h
      by_cases he : models.Bookmarks.Empty
          { ID := e.ID, Bookmarks := e.Bookmarks, LastUpdated := e.LastUpdated, Version := e.Version }
      · rw [if_pos he] at h; exact absurd h (by simp)
      · rw [if_neg he] at h
        have hb : b = { ID := e.ID, Bookmarks := e.Bookmarks, LastUpdated := e.LastUpdated, Version := e.Version } :=
          (Option.some.injEq _ _ ▸ h).symm
        rw [hb]
        exact Bool.eq_false_iff.mpr he

theorem storage.GetBookmarks_some_txGet (db : DBState) (id : String)
    (b : models.Bookmarks) (h : storage.GetBookmarks db id = some b) :
    txGet db (storage.bookmarksKey id) =
      some (StoredVal.entry { ID := b.ID, Bookmarks := b.Bookmarks, LastUpdated := b.LastUpdated, Version := b.Version }) := by
  unfold storage.GetBookmarks at h
  cases hv : txGet db (storage.bookmarksKey id) with
  | none => rw [hv] at h; exact absurd h (by simp)
  | some v =>
    rw [hv] at h
    cases v with
    | corrupt => exact absurd h (by simp [jsonUnmarshal])
    | entry e =>
      simp only [jsonUnmarshal] at h
      by_cases he : models.Bookmarks.Empty
          { ID := e.ID, Bookmarks := e.Bookmarks, LastUpdated := e.LastUpdated, Version := e.Version }
      · rw [if_pos he] at h; exact absurd h (by simp)
      · rw [if_neg he] at h
        have hb : { ID := e.ID, Bookmarks := e.Bookmarks, LastUpdated := e.LastUpdated, Version := e.Version } = b :=
          Option.some.injEq _ _ ▸ h
        rw [← hb]

theorem storage.GetBookmarks_SetBookmarks_self (db : DBState) (b : models.Bookmarks) :
    storage.GetBookmarks (storage.SetBookmarks db b) b.ID =
      if b.Empty then none else some b := by
  unfold storage.GetBookmarks storage.SetBookmarks storage.makeBookmarksEntry
  rw [txGet_txSet_same]
  rfl

theorem genStringLoop_ok_length (source : Nat → Option (Fin 36)) :
    ∀ (k i : Nat) (acc s : String),
      genStringLoop source k i acc = .ok s → s.length = acc.length + k := by
  intro k
  induction k with
  | zero =>
    intro i acc s h
    simp only [genStringLoop] at h
    cases h
    simp
  | succ k ih =>
    intro i acc s h
    simp only [genStringLoop] at h
    cases hs : source i with
    | none => rw [hs] at h; exact absurd h (by simp)
    | some n =>
      rw [hs] at h
      have := ih (i + 1) _ s h
      rw [this, String.length_push']
      omega

theorem genStringLoop_ok_mem (source : Nat → Option (Fin 36)) :
    ∀ (k i : Nat) (acc s : String), genStringLoop source k i acc = .ok s →
      ∀ c ∈ s.data, c ∈ acc.data ∨ c ∈ letters.data := by
  intro k
  induction k with
  | zero =>
    intro i acc s h c hc
    simp only [genStringLoop] at h
    cases h
    exact Or.inl hc
  | succ k ih =>
    intro i acc s h c hc
    simp only [genStringLoop] at h
    cases hs : source i with
    | none => rw [hs] at h; exact absurd h (by simp)
    | some n =>
      rw [hs] at h
      rcases ih (i + 1) _ s h c hc with h1 | h1
      · rw [String.data_push'] at h1
        rcases List.mem_append.1 h1 with h2 | h2
        · exact Or.inl h2
        · refine Or.inr ?_
          rcases List.mem_singleton.1 h2 with rfl
          exact List.get_mem _ _ _
      · exact Or.inr h1

theorem genStringLoop_fail (source : Nat → Option (Fin 36)) :
    ∀ (k i j : Nat), j < k → source (i + j) = none →
      ∀ acc, genStringLoop source k i acc = .error () := by
  intro k
  induction k with
  | zero => intro i j hj; omega
  | succ k ih =>
    intro i j hj hnone acc
    simp only [genStringLoop]
    cases hs : source i with
    | none => rfl
    | some n =>
      cases j with
      | zero => rw [Nat.add_zero] at hnone; rw [hnone] at hs; cases hs
      | succ j =>
        have : source (i + 1 + j) = none := by
          rw [show i + 1 + j = i + (j + 1) by omega]; exact hnone
        exact ih (i + 1) j (by omega) this _

/-- C1: an update whose supplied lastUpdated token exactly equals the stored
stored lastUpdated of the record succeeds: it returns the freshly generated timestamp
`now` and persists, under the same namespaced key, a record with the same
id, the same clientVersion, the new payload and the timestamp `now`; the
stored entry before the update (first conjunct) and after it (third
conjunct) share the same ID and Version fields. -/
theorem update_matching_token_succeeds (id : String) (p : api.UpdatePayload)
    (now : Time) (db : DBState) (b : models.Bookmarks)
    (hget : storage.GetBookmarks db id = some b)
    (hbid : b.ID = id)
    (htok : p.LastUpdated = b.LastUpdated) :
    txGet db (storage.bookmarksKey id) =
      some (StoredVal.entry { ID := b.ID, Bookmarks := b.Bookmarks, LastUpdated := b.LastUpdated, Version := b.Version }) ∧
    (api.UpdateBookmarks id (some p) now db).1 = .ok now ∧
    txGet (api.UpdateBookmarks id (some p) now db).2 (storage.bookmarksKey id) =
      some (StoredVal.entry { ID := b.ID, Bookmarks := p.Bookmarks, LastUpdated := now, Version := b.Version }) := by
  have hbne : b.Empty = false := storage.GetBookmarks_some_empty_false db id b hget
  have hidne : id ≠ "" := by
    rw [← hbid]
    exact ((models.Bookmarks.Empty_eq_false_iff b).1 hbne).1
  have key : api.UpdateBookmarks id (some p) now db =
      (.ok now, storage.SetBookmarks db
        { ID := id, Bookmarks := p.Bookmarks, LastUpdated := now, Version := b.Version }) := by
    simp [api.UpdateBookmarks, hidne, hget, htok]
  refine ⟨storage.GetBookmarks_some_txGet db id b hget, ?_, ?_⟩
  · rw [key]
  · rw [key, hbid]
    simp [storage.SetBookmarks, storage.makeBookmarksEntry, txGet_txSet_same]

/-- Witness for C1 at a concrete store and request. -/
theorem update_matching_token_succeeds_witness :
    storage.GetBookmarks
        [(storage.bookmarksKey "a", StoredVal.entry ⟨"a", "old", 5, "v1"⟩)] "a" =
      some ⟨"a", "old", 5, "v1"⟩ ∧
    (txGet [(storage.bookmarksKey "a", StoredVal.entry ⟨"a", "old", 5, "v1"⟩)]
        (storage.bookmarksKey "a") = some (StoredVal.entry ⟨"a", "old", 5, "v1"⟩) ∧
      (api.UpdateBookmarks "a" (some ⟨"new", 5⟩) 7
        [(storage.bookmarksKey "a", StoredVal.entry ⟨"a", "old", 5, "v1"⟩)]).1 = .ok 7 ∧
      txGet (api.UpdateBookmarks "a" (some ⟨"new", 5⟩) 7
        [(storage.bookmarksKey "a", StoredVal.entry ⟨"a", "old", 5, "v1"⟩)]).2
        (storage.bookmarksKey "a") = some (StoredVal.entry ⟨"a", "new", 7, "v1"⟩)) :=
  ⟨by rfl,
    update_matching_token_succeeds "a" ⟨"new", 5⟩ 7
      [(storage.bookmarksKey "a", StoredVal.entry ⟨"a", "old", 5, "v1"⟩)]
      ⟨"a", "old", 5, "v1"⟩ (by rfl) rfl rfl⟩

/-- C2: an update on an existing record whose token differs from the stored
lastUpdated under exact equality fails with BadRequest and leaves the store
unchanged; and once an update with the matching token T0 = b.LastUpdated
succeeds, repeating an update with the same token T0 fails with BadRequest
and leaves the store unchanged (under the clock hypotheses that the fresh
timestamp differs from T0 and from the Unix epoch). -/
theorem update_stale_token_badRequest (id : String) (now : Time) (db : DBState)
    (b : models.Bookmarks)
    (hget : storage.GetBookmarks db id = some b)
    (hbid : b.ID = id)
    (hfresh : now ≠ b.LastUpdated) (hnz : now ≠ timeUnixMicro 0) :
    (∀ p : api.UpdatePayload, p.LastUpdated ≠ b.LastUpdated →
      api.UpdateBookmarks id (some p) now db = (.badRequest, db)) ∧
    (∀ p : api.UpdatePayload, p.LastUpdated = b.LastUpdated →
      (api.UpdateBookmarks id (some p) now db).1 = .ok now ∧
      ∀ (q : api.UpdatePayload) (now2 : Time), q.LastUpdated = b.LastUpdated →
        api.UpdateBookmarks id (some q) now2 (api.UpdateBookmarks id (some p) now db).2 =
          (.badRequest, (api.UpdateBookmarks id (some p) now db).2)) := by
  have hbne : b.Empty = false := storage.GetBookmarks_some_empty_false db id b hget
  obtain ⟨hidb, -, hvb⟩ := (models.Bookmarks.Empty_eq_false_iff b).1 hbne
  have hidne : id ≠ "" := hbid ▸ hidb
  constructor
  · intro p hp
    simp [api.UpdateBookmarks, hidne, hget, hp]
  · intro p hp
    have key : api.UpdateBookmarks id (some p) now db =
        (.ok now, storage.SetBookmarks db
          { ID := id, Bookmarks := p.Bookmarks, LastUpdated := now, Version := b.Version }) := by
      simp [api.UpdateBookmarks, hidne, hget, hp]
    have hrec : models.Bookmarks.Empty
        { ID := id, Bookmarks := p.Bookmarks, LastUpdated := now, Version := b.Version } = false := by
      apply (models.Bookmarks.Empty_eq_false_iff _).2
      exact ⟨hidne, hnz, hvb⟩
    have hget2 : storage.GetBookmarks
        (storage.SetBookmarks db
          { ID := id, Bookmarks := p.Bookmarks, LastUpdated := now, Version := b.Version }) id =
        some { ID := id, Bookmarks := p.Bookmarks, LastUpdated := now, Version := b.Version } := by
      have := storage.GetBookmarks_SetBookmarks_self db
        { ID := id, Bookmarks := p.Bookmarks, LastUpdated := now, Version := b.Version }
      rw [hrec] at this
      simpa using this
    refine ⟨by rw [key], ?_⟩
    intro q now2 hq
    rw [key]
    simp only
    have hqne : q.LastUpdated ≠ now := by
      rw [hq]; exact fun h => hfresh h.symm
    simp [api.UpdateBookmarks, hidne, hget2, hqne]

/-- Witness for C2 at a concrete store and requests. -/
theorem update_stale_token_badRequest_witness :
    storage.GetBookmarks
        [(storage.bookmarksKey "a", StoredVal.entry ⟨"a", "old", 5, "v1"⟩)] "a" =
      some ⟨"a", "old", 5, "v1"⟩ ∧
    api.UpdateBookmarks "a" (some ⟨"new", 6⟩) 7
        [(storage.bookmarksKey "a", StoredVal.entry ⟨"a", "old", 5, "v1"⟩)] =
      (.badRequest, [(storage.bookmarksKey "a", StoredVal.entry ⟨"a", "old", 5, "v1"⟩)]) ∧
    (api.UpdateBookmarks "a" (some ⟨"new", 5⟩) 7
        [(storage.bookmarksKey "a", StoredVal.entry ⟨"a", "old", 5, "v1"⟩)]).1 = .ok 7 ∧
    api.UpdateBookmarks "a" (some ⟨"newer", 5⟩) 9
        (api.UpdateBookmarks "a" (some ⟨"new", 5⟩) 7
          [(storage.bookmarksKey "a", StoredVal.entry ⟨"a", "old", 5, "v1"⟩)]).2 =
      (.badRequest,
        (api.UpdateBookmarks "a" (some ⟨"new", 5⟩) 7
          [(storage.bookmarksKey "a", StoredVal.entry ⟨"a", "old", 5, "v1"⟩)]).2) := by
  have h := update_stale_token_badRequest "a" 7
    [(storage.bookmarksKey "a", StoredVal.entry ⟨"a", "old", 5, "v1"⟩)]
    ⟨"a", "old", 5, "v1"⟩ (by rfl) rfl (by decide) (by decide)
  exact ⟨by rfl, h.1 ⟨"new", 6⟩ (by decide), (h.2 ⟨"new", 5⟩ rfl).1,
    (h.2 ⟨"new", 5⟩ rfl).2 ⟨"newer", 5⟩ 9 rfl⟩

/-- C3: the get operation of the store fails exactly when no value is stored under the
namespaced key, or the stored value fails to deserialize into a fully
populated record (json.Unmarshal failure, or the decoded record fails the
Empty check); any record it returns is the stored one; and at the handler
level every such failure is reported identically as NotFound. -/
theorem getBookmarks_notFound_characterization (db : DBState) (id : String) :
    (storage.GetBookmarks db id = none ↔
      txGet db (storage.bookmarksKey id) = none ∨
      ∃ v, txGet db (storage.bookmarksKey id) = some v ∧
        (jsonUnmarshal v = none ∨
          ∃ e, jsonUnmarshal v = some e ∧
            models.Bookmarks.Empty { ID := e.ID, Bookmarks := e.Bookmarks, LastUpdated := e.LastUpdated, Version := e.Version } = true)) ∧
    (∀ b, storage.GetBookmarks db id = some b →
      ∃ e, txGet db (storage.bookmarksKey id) = some (StoredVal.entry e) ∧
        b = { ID := e.ID, Bookmarks := e.Bookmarks, LastUpdated := e.LastUpdated, Version := e.Version }) ∧
    (id ≠ "" → storage.GetBookmarks db id = none → api.Bookmarks id db = .notFound) := by
  refine ⟨?_, ?_, ?_⟩
  · unfold storage.GetBookmarks
    cases hv : txGet db (storage.bookmarksKey id) with
    | none => simp
    | some v =>
      cases v with
      | corrupt => simp [jsonUnmarshal]
      | entry e =>
        by_cases he : models.Bookmarks.Empty { ID := e.ID, Bookmarks := e.Bookmarks, LastUpdated := e.LastUpdated, Version := e.Version } = true
        · simp [jsonUnmarshal, he]
        · simp [jsonUnmarshal, he]
  · intro b hb
    refine ⟨{ ID := b.ID, Bookmarks := b.Bookmarks, LastUpdated := b.LastUpdated, Version := b.Version }, ?_, rfl⟩
    exact storage.GetBookmarks_some_txGet db id b hb
  · intro hid hnone
    simp [api.Bookmarks, hid, hnone]

/-- Witness for C3: a corrupt stored value is reported as NotFound. -/
theorem getBookmarks_notFound_characterization_witness :
    storage.GetBookmarks [(storage.bookmarksKey "x", StoredVal.corrupt)] "x" = none ∧
    api.Bookmarks "x" [(storage.bookmarksKey "x", StoredVal.corrupt)] = .notFound :=
  ⟨by rfl,
    (getBookmarks_notFound_characterization
      [(storage.bookmarksKey "x", StoredVal.corrupt)] "x").2.2 (by decide) (by rfl)⟩

/-- C4: every record the get operation of the store returns is fully populated: non-empty
id, lastUpdated different from the default timestamp time.UnixMicro(0), and
non-empty version. -/
theorem getBookmarks_some_fully_populated (db : DBState) (id : String)
    (b : models.Bookmarks) (h : storage.GetBookmarks db id = some b) :
    b.ID ≠ "" ∧ b.LastUpdated ≠ timeUnixMicro 0 ∧ b.Version ≠ "" :=
  (models.Bookmarks.Empty_eq_false_iff b).1
    (storage.GetBookmarks_some_empty_false db id b h)

/-- Witness for C4 at a concrete store. -/
theorem getBookmarks_some_fully_populated_witness :
    storage.GetBookmarks
        [(storage.bookmarksKey "a", StoredVal.entry ⟨"a", "data", 5, "v1"⟩)] "a" =
      some ⟨"a", "data", 5, "v1"⟩ ∧
    (("a" : String) ≠ "" ∧ (5 : Time) ≠ timeUnixMicro 0 ∧ ("v1" : String) ≠ "") :=
  ⟨by rfl,
    getBookmarks_some_fully_populated
      [(storage.bookmarksKey "a", StoredVal.entry ⟨"a", "data", 5, "v1"⟩)] "a"
      ⟨"a", "data", 5, "v1"⟩ (by rfl)⟩

/-- C5 counterexample: creating a record with an empty version tag succeeds,
yet reading it back by the returned id yields NotFound rather than the
created payload, version and timestamp. -/
theorem create_read_roundtrip_cex :
    (api.CreateBookmarks (some "") (fun _ => some 0) 1 []).1 =
      .ok "aaaaaaaaaaaaaaaaaaaaaaaaaaaaaaaa" 1 "" ∧
    api.Bookmarks "aaaaaaaaaaaaaaaaaaaaaaaaaaaaaaaa"
      (api.CreateBookmarks (some "") (fun _ => some 0) 1 []).2 = .notFound :=
  ⟨rfl, rfl⟩

/-- C5 (amended): for every create request whose version tag is non-empty,
when id generation succeeds and the creation instant is not the Unix epoch,
creating a record and then reading it by the returned id returns the empty
payload, the same version tag, and a timestamp equal to the creation
timestamp. -/
theorem create_read_roundtrip (version : String) (source : Nat → Option (Fin 36))
    (now : Time) (db : DBState) (id : String)
    (hgen : genString api.idLength source = .ok id)
    (hv : version ≠ "") (hnow : now ≠ timeUnixMicro 0) :
    (api.CreateBookmarks (some version) source now db).1 = .ok id now version ∧
    api.Bookmarks id (api.CreateBookmarks (some version) source now db).2 =
      .ok ("", now, version) := by
  have hlen : id.length = 32 := by
    have := genStringLoop_ok_length source api.idLength 0 "" id hgen
    simpa [api.idLength] using this
  have hidne : id ≠ "" := by
    intro h
    rw [h] at hlen
    simp [String.length] at hlen
  have key : api.CreateBookmarks (some version) source now db =
      (.ok id now version, storage.SetBookmarks db
        { ID := id, Bookmarks := "", LastUpdated := now, Version := version }) := by
    simp [api.CreateBookmarks, hgen]
  have hrec : models.Bookmarks.Empty
      { ID := id, Bookmarks := "", LastUpdated := now, Version := version } = false :=
    (models.Bookmarks.Empty_eq_false_iff _).2 ⟨hidne, hnow, hv⟩
  have hget : storage.GetBookmarks (storage.SetBookmarks db
        { ID := id, Bookmarks := "", LastUpdated := now, Version := version }) id =
      some { ID := id, Bookmarks := "", LastUpdated := now, Version := version } := by
    have := storage.GetBookmarks_SetBookmarks_self db
      { ID := id, Bookmarks := "", LastUpdated := now, Version := version }
    rw [hrec] at this
    simpa using this
  refine ⟨by rw [key], ?_⟩
  rw [key]
  simp [api.Bookmarks, hidne, hget]

/-- Witness for the amended C5 at a concrete request. -/
theorem create_read_roundtrip_witness :
    genString api.idLength (fun _ => some 0) = .ok "aaaaaaaaaaaaaaaaaaaaaaaaaaaaaaaa" ∧
    ((api.CreateBookmarks (some "1.0.0") (fun _ => some 0) 1 []).1 =
        .ok "aaaaaaaaaaaaaaaaaaaaaaaaaaaaaaaa" 1 "1.0.0" ∧
      api.Bookmarks "aaaaaaaaaaaaaaaaaaaaaaaaaaaaaaaa"
        (api.CreateBookmarks (some "1.0.0") (fun _ => some 0) 1 []).2 =
        .ok ("", 1, "1.0.0")) :=
  ⟨by rfl,
    create_read_roundtrip "1.0.0" (fun _ => some 0) 1 [] "aaaaaaaaaaaaaaaaaaaaaaaaaaaaaaaa"
      (by rfl) (by decide) (by decide)⟩

/-- C6: whenever gen.String succeeds at the configured length idLength = 32,
the returned id has exactly 32 characters, each drawn from the fixed
36-character alphabet of lowercase letters and digits; whenever the
randomness source fails on a drawn index, gen.String returns an error and
no id. -/
theorem genString_idLength_spec (source : Nat → Option (Fin 36)) :
    (∀ s, genString api.idLength source = .ok s →
      s.length = 32 ∧ ∀ c ∈ s.data, c ∈ letters.data) ∧
    (∀ i, i < api.idLength → source i = none →
      genString api.idLength source = .error ()) := by
  constructor
  · intro s h
    constructor
    · have := genStringLoop_ok_length source api.idLength 0 "" s h
      simpa [api.idLength] using this
    · intro c hc
      rcases genStringLoop_ok_mem source api.idLength 0 "" s h c hc with h1 | h1
      · exact absurd h1 (List.not_mem_nil c)
      · exact h1
  · intro i hi hnone
    exact genStringLoop_fail source api.idLength 0 i hi (by simpa using hnone) ""

/-- Witness for C6: a constant randomness source produces a 32-character
alphabet string, and an always-failing source yields an error. -/
theorem genString_idLength_spec_witness :
    genString api.idLength (fun _ => some 0) = .ok "aaaaaaaaaaaaaaaaaaaaaaaaaaaaaaaa" ∧
    ("aaaaaaaaaaaaaaaaaaaaaaaaaaaaaaaa".length = 32 ∧
      ∀ c ∈ "aaaaaaaaaaaaaaaaaaaaaaaaaaaaaaaa".data, c ∈ letters.data) ∧
    genString api.idLength (fun _ => none) = .error () :=
  ⟨by rfl,
    (genString_idLength_spec (fun _ => some 0)).1 "aaaaaaaaaaaaaaaaaaaaaaaaaaaaaaaa" (by rfl),
    (genString_idLength_spec (fun _ => none)).2 0 (by decide) rfl⟩

/-- C7: a read with an empty id returns BadRequest whatever the state of
the store (the store is never consulted), and a read with a non-empty id
whose namespaced key was never written returns NotFound. -/
theorem read_empty_id_and_missing_id (id : String) (db : DBState) :
    (id = "" → ∀ db2 : DBState, api.Bookmarks id db2 = .badRequest) ∧
    (id ≠ "" → txGet db (storage.bookmarksKey id) = none →
      api.Bookmarks id db = .notFound) := by
  constructor
  · intro h db2
    simp [api.Bookmarks, h]
  · intro hid hnone
    have hget : storage.GetBookmarks db id = none := by
      unfold storage.GetBookmarks
      rw [hnone]
    simp [api.Bookmarks, hid, hget]

/-- Witness for C7 at concrete reads. -/
theorem read_empty_id_and_missing_id_witness :
    api.Bookmarks ""
      [(storage.bookmarksKey "a", StoredVal.entry ⟨"a", "d", 5, "v"⟩)] = .badRequest ∧
    api.Bookmarks "y" [] = .notFound :=
  ⟨(read_empty_id_and_missing_id "" []).1 rfl
      [(storage.bookmarksKey "a", StoredVal.entry ⟨"a", "d", 5, "v"⟩)],
    (read_empty_id_and_missing_id "y" []).2 (by decide) rfl⟩

/-- C8: every successful update stores the server-generated current
timestamp `now` regardless of the client payload, returns it, and (under
the hypothesis that the clock is later than the stored timestamp) strictly
advances the stored lastUpdated. -/
theorem update_success_advances_timestamp (id : String) (p : api.UpdatePayload)
    (now t : Time) (db : DBState) (b : models.Bookmarks)
    (hget : storage.GetBookmarks db id = some b)
    (hclock : b.LastUpdated < now)
    (hok : (api.UpdateBookmarks id (some p) now db).1 = .ok t) :
    t = now ∧ b.LastUpdated < t ∧
    txGet (api.UpdateBookmarks id (some p) now db).2 (storage.bookmarksKey id) =
      some (StoredVal.entry
        { ID := id, Bookmarks := p.Bookmarks, LastUpdated := now, Version := b.Version }) := by
  by_cases hid : id = ""
  · simp [api.UpdateBookmarks, hid] at hok
  · by_cases htok : p.LastUpdated = b.LastUpdated
    · have key : api.UpdateBookmarks id (some p) now db =
          (.ok now, storage.SetBookmarks db
            { ID := id, Bookmarks := p.Bookmarks, LastUpdated := now, Version := b.Version }) := by
        simp [api.UpdateBookmarks, hid, hget, htok]
      have hok2 : api.UpdateResult.ok now = .ok t := by
        rw [key] at hok
        exact hok
      have ht : now = t := by injection hok2
      refine ⟨ht.symm, ht ▸ hclock, ?_⟩
      rw [key]
      simp [storage.SetBookmarks, storage.makeBookmarksEntry, txGet_txSet_same]
    · simp [api.UpdateBookmarks, hid, hget, htok] at hok

/-- Witness for C8 at a concrete update. -/
theorem update_success_advances_timestamp_witness :
    storage.GetBookmarks
        [(storage.bookmarksKey "a", StoredVal.entry ⟨"a", "old", 5, "v1"⟩)] "a" =
      some ⟨"a", "old", 5, "v1"⟩ ∧
    ((5 : Time) < 7 ∧
      ((7 : Time) = 7 ∧ (5 : Time) < 7 ∧
        txGet (api.UpdateBookmarks "a" (some ⟨"new", 5⟩) 7
            [(storage.bookmarksKey "a", StoredVal.entry ⟨"a", "old", 5, "v1"⟩)]).2
          (storage.bookmarksKey "a") = some (StoredVal.entry ⟨"a", "new", 7, "v1"⟩))) :=
  ⟨by rfl, by decide,
    update_success_advances_timestamp "a" ⟨"new", 5⟩ 7 7
      [(storage.bookmarksKey "a", StoredVal.entry ⟨"a", "old", 5, "v1"⟩)]
      ⟨"a", "old", 5, "v1"⟩ (by rfl) (by decide) (by rfl)⟩

/-- Decomposition of api.UpdateBookmarks into its two backend transactions:
run in isolation, the read phase followed by the write phase on the same
state is exactly the handler.  Under interleaving the two phases of one
request may be separated by the transactions of another request. -/
theorem updateBookmarks_run_phases (id : String) (p : api.UpdatePayload)
    (now : Time) (db : DBState) :
    api.UpdateBookmarks id (some p) now db =
      (match updateBookmarksRead id (some p) db with
        | .inl r => (r, db)
        | .inr b => updateBookmarksWrite id p now b db) := by
  unfold api.UpdateBookmarks updateBookmarksRead updateBookmarksWrite
  by_cases hid : id = ""
  · simp [hid]
  · simp only [if_neg hid]
    cases hget : storage.GetBookmarks db id with
    | none => simp
    | some b =>
      by_cases htok : p.LastUpdated = b.LastUpdated
      · simp [htok]
      · simp [htok]

/-- C9 (failing execution): two updates on id "x", both carrying the stored
token 1, interleaved as read-read-write-write across the two separate
backend transactions of the handler.  Both read phases pass the staleness check
against the initial state, then both write phases succeed, so both requests
answer 200 with their own fresh timestamp, and the first write (payload
"p1") is silently overwritten by the second (payload "p2"): a lost update,
violating at-most-one-success. -/
theorem concurrent_updates_both_succeed :
    updateBookmarksRead "x" (some ⟨"p1", 1⟩)
        [(storage.bookmarksKey "x", StoredVal.entry ⟨"x", "orig", 1, "v"⟩)] =
      .inr ⟨"x", "orig", 1, "v"⟩ ∧
    updateBookmarksRead "x" (some ⟨"p2", 1⟩)
        [(storage.bookmarksKey "x", StoredVal.entry ⟨"x", "orig", 1, "v"⟩)] =
      .inr ⟨"x", "orig", 1, "v"⟩ ∧
    updateBookmarksWrite "x" ⟨"p1", 1⟩ 2 ⟨"x", "orig", 1, "v"⟩
        [(storage.bookmarksKey "x", StoredVal.entry ⟨"x", "orig", 1, "v"⟩)] =
      (.ok 2, [(storage.bookmarksKey "x", StoredVal.entry ⟨"x", "p1", 2, "v"⟩)]) ∧
    updateBookmarksWrite "x" ⟨"p2", 1⟩ 3 ⟨"x", "orig", 1, "v"⟩
        [(storage.bookmarksKey "x", StoredVal.entry ⟨"x", "p1", 2, "v"⟩)] =
      (.ok 3, [(storage.bookmarksKey "x", StoredVal.entry ⟨"x", "p2", 3, "v"⟩)]) :=
  ⟨rfl, rfl, rfl, rfl⟩

/-- C10: creating a record with an empty version tag succeeds and returns
the generated id, but the stored record fails the fully-populated check, so
reading it, reading its lastUpdated or version, and updating it all fail
with NotFound, the store being left unchanged by the attempted update. -/
theorem create_empty_version_record_unreachable (source : Nat → Option (Fin 36))
    (now : Time) (db : DBState) (id : String)
    (hgen : genString api.idLength source = .ok id) :
    (api.CreateBookmarks (some "") source now db).1 = .ok id now "" ∧
    api.Bookmarks id (api.CreateBookmarks (some "") source now db).2 = .notFound ∧
    api.LastUpdated id (api.CreateBookmarks (some "") source now db).2 = .notFound ∧
    api.Version id (api.CreateBookmarks (some "") source now db).2 = .notFound ∧
    (∀ (p : api.UpdatePayload) (now2 : Time),
      api.UpdateBookmarks id (some p) now2 (api.CreateBookmarks (some "") source now db).2 =
        (.notFound, (api.CreateBookmarks (some "") source now db).2)) := by
  have hlen : id.length = 32 := by
    have := genStringLoop_ok_length source api.idLength 0 "" id hgen
    simpa [api.idLength] using this
  have hidne : id ≠ "" := by
    intro h
    rw [h] at hlen
    simp [String.length] at hlen
  have key : api.CreateBookmarks (some "") source now db =
      (.ok id now "", storage.SetBookmarks db
        { ID := id, Bookmarks := "", LastUpdated := now, Version := "" }) := by
    simp [api.CreateBookmarks, hgen]
  have hrec : models.Bookmarks.Empty
      { ID := id, Bookmarks := "", LastUpdated := now, Version := "" } = true := by
    simp [models.Bookmarks.Empty]
  have hget : storage.GetBookmarks (storage.SetBookmarks db
        { ID := id, Bookmarks := "", LastUpdated := now, Version := "" }) id = none := by
    have := storage.GetBookmarks_SetBookmarks_self db
      { ID := id, Bookmarks := "", LastUpdated := now, Version := "" }
    rw [hrec] at this
    simpa using this
  rw [key]
  refine ⟨rfl, ?_, ?_, ?_, ?_⟩
  · simp [api.Bookmarks, hidne, hget]
  · simp [api.LastUpdated, hidne, hget]
  · simp [api.Version, hidne, hget]
  · intro p now2
    simp [api.UpdateBookmarks, hidne, hget]

/-- Witness for C10 at a concrete create with empty version. -/
theorem create_empty_version_record_unreachable_witness :
    genString api.idLength (fun _ => some 0) = .ok "aaaaaaaaaaaaaaaaaaaaaaaaaaaaaaaa" ∧
    ((api.CreateBookmarks (some "") (fun _ => some 0) 1 []).1 =
        .ok "aaaaaaaaaaaaaaaaaaaaaaaaaaaaaaaa" 1 "" ∧
      api.Bookmarks "aaaaaaaaaaaaaaaaaaaaaaaaaaaaaaaa"
        (api.CreateBookmarks (some "") (fun _ => some 0) 1 []).2 = .notFound ∧
      api.LastUpdated "aaaaaaaaaaaaaaaaaaaaaaaaaaaaaaaa"
        (api.CreateBookmarks (some "") (fun _ => some 0) 1 []).2 = .notFound ∧
      api.Version "aaaaaaaaaaaaaaaaaaaaaaaaaaaaaaaa"
        (api.CreateBookmarks (some "") (fun _ => some 0) 1 []).2 = .notFound ∧
      api.UpdateBookmarks "aaaaaaaaaaaaaaaaaaaaaaaaaaaaaaaa" (some ⟨"p", 1⟩) 9
          (api.CreateBookmarks (some "") (fun _ => some 0) 1 []).2 =
        (.notFound, (api.CreateBookmarks (some "") (fun _ => some 0) 1 []).2)) := by
  have h := create_empty_version_record_unreachable (fun _ => some 0) 1 []
    "aaaaaaaaaaaaaaaaaaaaaaaaaaaaaaaa" (by rfl)
  exact ⟨by rfl, h.1, h.2.1, h.2.2.1, h.2.2.2.1, h.2.2.2.2 ⟨"p", 1⟩ 9⟩
